import Mathlib

/-!
Verification of the capture-to-panorama pipeline of the videoPano
repository, against a shallow embedding of its two core functions:

* `stitchFrames` from `src/hooks/useStitcher.ts` — the stitch engine:
  guard checks, progress events, feature-stitcher selection, the
  horizontal-concatenation fallback, and the equirectangular resize;
* the `startCapture` loop from `src/components/PanoramaCapture.tsx` —
  the timed capture scheduler and its post-condition check.

Raster images are modelled as a width, a height and a pixel function
(RGBA as a 4-tuple of naturals).  Frames handed to `stitchFrames` are
modelled as already-decoded images: the data-URL round trip through the
DOM `Image` element and `cv.imread` is an external collaborator and the
onload path (every decode succeeds) is the one embedded.  Progress
percentages are rationals, mirroring the exact JavaScript expressions
`10 + (i / frames.length) * 20` and `50 + (i / images.length) * 30`.
-/

namespace VideoPano

/-- One RGBA pixel, channels in order (r, g, b, a). -/
abbrev Pixel : Type := Nat × Nat × Nat × Nat

/-- A decoded raster image: dimensions plus a pixel function.
Corresponds to an OpenCV `Mat` of type `CV_8UC4` (`cols` = `width`,
`rows` = `height`). -/
structure Image where
  width : Nat
  height : Nat
  pix : Nat → Nat → Pixel

/-- `new cv.Mat(maxHeight, totalWidth, cv.CV_8UC4)` followed by
`result.setTo(new cv.Scalar(0, 0, 0, 255))` (useStitcher.ts lines
98–99): a canvas with every pixel (0, 0, 0, 255). -/
def blackCanvas (w h : Nat) : Image :=
  ⟨w, h, fun _ _ => (0, 0, 0, 255)⟩

/-- `images[i].copyTo(roi)` where `roi = result.roi(new cv.Rect(x0, y0,
src.width, src.height))` (useStitcher.ts lines 104–105): writes `src`
into the rectangle of `dst` anchored at `(x0, y0)`, leaving every other
pixel of `dst` unchanged. -/
def copyTo (dst src : Image) (x0 y0 : Nat) : Image :=
  ⟨dst.width, dst.height, fun x y =>
    if x0 ≤ x ∧ x < x0 + src.width ∧ y0 ≤ y ∧ y < y0 + src.height then
      src.pix (x - x0) (y - y0)
    else
      dst.pix x y⟩

/-- The `images.forEach` accumulation `totalWidth += img.cols`
(useStitcher.ts lines 92–95). -/
def totalWidth (imgs : List Image) : Nat :=
  imgs.foldl (fun acc img => acc + img.width) 0

/-- The `images.forEach` accumulation
`maxHeight = Math.max(maxHeight, img.rows)` (useStitcher.ts lines
92–95). -/
def maxHeight (imgs : List Image) : Nat :=
  imgs.foldl (fun acc img => max acc img.height) 0

/-- The concatenation loop of the fallback path (useStitcher.ts lines
102–114): copy each image into the canvas at `(xOffset, 0)`, then
advance `xOffset` by that image's width. -/
def concatImages : List Image → Image → Nat → Image
  | [], canvas, _ => canvas
  | img :: rest, canvas, xOffset =>
      concatImages rest (copyTo canvas img xOffset 0) (xOffset + img.width)

/-- The whole fallback stitcher (useStitcher.ts lines 86–114): a black
canvas of size `totalWidth × maxHeight`, with the frames concatenated
horizontally in order. -/
def fallbackStitch (imgs : List Image) : Image :=
  concatImages imgs (blackCanvas (totalWidth imgs) (maxHeight imgs)) 0

/-- The value of the loop variable `xOffset` when frame `i` is copied:
the sum of the widths of frames `0 .. i-1`. -/
def offsetOf : List Image → Nat → Nat
  | _, 0 => 0
  | [], _ + 1 => 0
  | img :: rest, i + 1 => img.width + offsetOf rest i

/-- `cv.resize(src, dst, new cv.Size(tw, th))` (useStitcher.ts line
129), modelled dimension-faithfully: the output has exactly the
requested size; the pixel content is a resample of the source (the
interpolation kernel of OpenCV is an external primitive, here a
nearest-neighbour stand-in). -/
def cvResize (src : Image) (tw th : Nat) : Image :=
  ⟨tw, th, fun x y => src.pix (x * src.width / max tw 1) (y * src.height / max th 1)⟩

/-- The equirectangular projection step (useStitcher.ts lines 124–129):
`targetWidth = result.cols`, `targetHeight = Math.floor(targetWidth / 2)`,
then `cv.resize` to that size.  `Nat` division is the floor. -/
def projectionConvert (composite : Image) : Image :=
  cvResize composite composite.width (composite.width / 2)

/- ### Fold helper lemmas -/

theorem foldl_add_eq_sum (l : List Nat) (b : Nat) :
    l.foldl (fun acc x => acc + x) b = b + l.sum := by
  induction l generalizing b with
  | nil => simp
  | cons a l ih => simp only [List.foldl_cons, List.sum_cons, ih]; omega

theorem foldl_max_init (l : List Nat) (b : Nat) : b ≤ l.foldl max b := by
  induction l generalizing b with
  | nil => simp
  | cons a l ih =>
      simp only [List.foldl_cons]
      exact le_trans (Nat.le_max_left b a) (ih (max b a))

theorem le_foldl_max (l : List Nat) (b : Nat) :
    ∀ x ∈ l, x ≤ l.foldl max b := by
  induction l generalizing b with
  | nil => intro x hx; simp at hx
  | cons a l ih =>
      intro x hx
      rcases List.mem_cons.mp hx with h | h
      · subst h
        exact le_trans (Nat.le_max_right b x) (foldl_max_init l (max b x))
      · exact ih (max b a) x h

theorem foldl_max_mem (l : List Nat) (b : Nat) :
    l.foldl max b = b ∨ l.foldl max b ∈ l := by
  induction l generalizing b with
  | nil => left; rfl
  | cons a l ih =>
      simp only [List.foldl_cons]
      rcases ih (max b a) with h | h
      · rcases Nat.le_total b a with hba | hab
        · right
          rw [h, Nat.max_eq_right hba]
          exact List.mem_cons_self a l
        · left
          rw [h, Nat.max_eq_left hab]
      · right; exact List.mem_cons_of_mem a h

theorem totalWidth_eq_sum (imgs : List Image) :
    totalWidth imgs = (imgs.map Image.width).sum := by
  unfold totalWidth
  rw [← List.foldl_map, foldl_add_eq_sum]
  omega

theorem maxHeight_eq_foldl (imgs : List Image) :
    maxHeight imgs = (imgs.map Image.height).foldl max 0 := by
  unfold maxHeight
  rw [← List.foldl_map]

theorem height_le_maxHeight (imgs : List Image) :
    ∀ img ∈ imgs, img.height ≤ maxHeight imgs := by
  intro img hmem
  rw [maxHeight_eq_foldl]
  exact le_foldl_max _ 0 img.height (List.mem_map_of_mem Image.height hmem)

theorem maxHeight_mem (imgs : List Image) (hne : imgs ≠ []) :
    ∃ img ∈ imgs, maxHeight imgs = img.height := by
  rw [maxHeight_eq_foldl]
  rcases foldl_max_mem (imgs.map Image.height) 0 with h | h
  · rcases imgs with _ | ⟨a, l⟩
    · exact absurd rfl hne
    · refine ⟨a, List.mem_cons_self a l, ?_⟩
      have ha : a.height ≤ (List.map Image.height (a :: l)).foldl max 0 :=
        le_foldl_max _ 0 a.height
          (List.mem_map_of_mem Image.height (List.mem_cons_self a l))
      omega
  · rcases List.mem_map.mp h with ⟨img, hmem, heq⟩
    exact ⟨img, hmem, heq.symm⟩

/- ### Geometry of the concatenation loop -/

theorem concatImages_width (imgs : List Image) :
    ∀ canvas xOffset, (concatImages imgs canvas xOffset).width = canvas.width := by
  induction imgs with
  | nil => intro canvas xOffset; rfl
  | cons img rest ih => intro canvas xOffset; exact ih _ _

theorem concatImages_height (imgs : List Image) :
    ∀ canvas xOffset, (concatImages imgs canvas xOffset).height = canvas.height := by
  induction imgs with
  | nil => intro canvas xOffset; rfl
  | cons img rest ih => intro canvas xOffset; exact ih _ _

theorem fallbackStitch_width (imgs : List Image) :
    (fallbackStitch imgs).width = (imgs.map Image.width).sum := by
  unfold fallbackStitch
  rw [concatImages_width, ← totalWidth_eq_sum]; rfl

theorem fallbackStitch_height (imgs : List Image) :
    (fallbackStitch imgs).height = maxHeight imgs := by
  unfold fallbackStitch
  rw [concatImages_height]; rfl

/-- Pixels strictly left of the running offset are never touched by the
remaining copies. -/
theorem concatImages_pix_left (imgs : List Image) :
    ∀ canvas xOffset x y, x < xOffset →
      (concatImages imgs canvas xOffset).pix x y = canvas.pix x y := by
  induction imgs with
  | nil => intro canvas xOffset x y _; rfl
  | cons img rest ih =>
      intro canvas xOffset x y hx
      have h1 : (concatImages (img :: rest) canvas xOffset).pix x y
          = (copyTo canvas img xOffset 0).pix x y :=
        ih (copyTo canvas img xOffset 0) (xOffset + img.width) x y (by omega)
      rw [h1]
      unfold copyTo
      simp only
      rw [if_neg]
      intro hcond
      omega

/-- Frame `i`'s pixels end up at `(xOffset + offsetOf i + x, y)`. -/
theorem concatImages_pix_frame (imgs : List Image) :
    ∀ canvas xOffset i (hi : i < imgs.length) x y,
      x < (imgs.get ⟨i, hi⟩).width → y < (imgs.get ⟨i, hi⟩).height →
      (concatImages imgs canvas xOffset).pix (xOffset + offsetOf imgs i + x) y
        = (imgs.get ⟨i, hi⟩).pix x y := by
  induction imgs with
  | nil => intro canvas xOffset i hi; simp at hi
  | cons img rest ih =>
      intro canvas xOffset i hi x y hx hy
      cases i with
      | zero =>
          simp only [offsetOf, Nat.add_zero, List.get] at *
          have h1 : (concatImages (img :: rest) canvas xOffset).pix (xOffset + x) y
              = (copyTo canvas img xOffset 0).pix (xOffset + x) y :=
            concatImages_pix_left rest _ _ (xOffset + x) y (by omega)
          rw [h1]
          unfold copyTo
          simp only
          rw [if_pos (by omega)]
          congr 1
          · omega
      | succ j =>
          simp only [List.get] at *
          have harg : xOffset + offsetOf (img :: rest) (j + 1) + x
              = (xOffset + img.width) + offsetOf rest j + x := by
            simp only [offsetOf]; omega
          rw [show concatImages (img :: rest) canvas xOffset
              = concatImages rest (copyTo canvas img xOffset 0) (xOffset + img.width) from rfl,
            harg]
          exact ih (copyTo canvas img xOffset 0) (xOffset + img.width) j
            (by simpa using hi) x y hx hy

/-- A pixel inside no frame's rectangle keeps the canvas value. -/
theorem concatImages_pix_uncovered (imgs : List Image) :
    ∀ canvas xOffset x y,
      (∀ i (hi : i < imgs.length),
        ¬(xOffset + offsetOf imgs i ≤ x
          ∧ x < xOffset + offsetOf imgs i + (imgs.get ⟨i, hi⟩).width
          ∧ y < (imgs.get ⟨i, hi⟩).height)) →
      (concatImages imgs canvas xOffset).pix x y = canvas.pix x y := by
  induction imgs with
  | nil => intro canvas xOffset x y _; rfl
  | cons img rest ih =>
      intro canvas xOffset x y h
      have hrest : ∀ i (hi : i < rest.length),
          ¬((xOffset + img.width) + offsetOf rest i ≤ x
            ∧ x < (xOffset + img.width) + offsetOf rest i + (rest.get ⟨i, hi⟩).width
            ∧ y < (rest.get ⟨i, hi⟩).height) := by
        intro i hi
        have := h (i + 1) (by simpa using Nat.succ_lt_succ hi)
        simpa only [offsetOf, List.get, show xOffset + (img.width + offsetOf rest i)
          = xOffset + img.width + offsetOf rest i from by omega] using this
      have h1 : (concatImages (img :: rest) canvas xOffset).pix x y
          = (copyTo canvas img xOffset 0).pix x y :=
        ih (copyTo canvas img xOffset 0) (xOffset + img.width) x y hrest
      rw [h1]
      unfold copyTo
      simp only
      rw [if_neg]
      intro hcond
      have h0 := h 0 (by simp)
      simp only [offsetOf, Nat.add_zero, List.get] at h0
      refine h0 ⟨hcond.1, hcond.2.1, ?_⟩
      omega

theorem offsetOf_succ (imgs : List Image) :
    ∀ i (hi : i < imgs.length),
      offsetOf imgs (i + 1) = offsetOf imgs i + (imgs.get ⟨i, hi⟩).width := by
  induction imgs with
  | nil => intro i hi; simp at hi
  | cons img rest ih =>
      intro i hi
      cases i with
      | zero => simp [offsetOf]
      | succ j =>
          simp only [offsetOf, List.get]
          rw [ih j (by simpa using hi)]
          omega

theorem offsetOf_mono (imgs : List Image) :
    ∀ i j, i ≤ j → offsetOf imgs i ≤ offsetOf imgs j := by
  induction imgs with
  | nil =>
      intro i j _
      cases i <;> cases j <;> simp [offsetOf]
  | cons img rest ih =>
      intro i j hij
      cases i with
      | zero => cases j <;> simp [offsetOf]
      | succ a =>
          cases j with
          | zero => omega
          | succ b =>
              simp only [offsetOf]
              have := ih a b (by omega)
              omega

/- ### The stitch engine -/

/-- The `stage` field of `StitchProgress` (useStitcher.ts lines 4–8). -/
inductive Stage
  | loading
  | preprocessing
  | detecting
  | matching
  | warping
  | blending
  | complete
deriving DecidableEq, Repr

/-- A `StitchProgress` value as passed to `setProgress`: stage, percent
(0–100, a rational mirroring the JavaScript arithmetic), message. -/
structure ProgressEvent where
  stage : Stage
  progress : ℚ
  message : String
deriving DecidableEq

/-- The typed errors `stitchFrames` can reject with:
`'OpenCV not loaded'` (line 25), `'Need at least 2 frames to stitch'`
(line 29), and `` `Stitching failed with status: ${status}` `` (line
80). -/
inductive StitchError
  | engineNotLoaded
  | insufficientFrames
  | stitchStatus (status : Nat)
deriving DecidableEq

/-- The engine environment: whether OpenCV is loaded (`isLoaded && cv`),
whether the dedicated stitching primitive exists
(`cv.Stitcher_create && cv.Stitcher_PANORAMA !== undefined`, line 71),
and the external `cv.Stitcher` itself — `stitcher.stitch(images, pano)`
either fills `pano` (`status === cv.Stitcher_OK`) or reports a non-OK
status code (lines 72–81). -/
structure EngineConfig where
  loaded : Bool
  stitcherAvailable : Bool
  featureStitch : List Image → Except Nat Image

/-- What one call of `stitchFrames` produces: the ordered list of
`setProgress` events it emitted, and either the returned panorama or
the error it rejected with. -/
structure StitchOutcome where
  events : List ProgressEvent
  result : Except StitchError Image

/-- The per-frame `setProgress` calls of the load loop (useStitcher.ts
lines 48–52): one event per loaded frame `i`, percent
`10 + (i / frames.length) * 20`. -/
def preprocessEvents (n : Nat) : List ProgressEvent :=
  (List.range n).map fun (i : Nat) =>
    ⟨.preprocessing, 10 + ((i : ℚ) / (n : ℚ)) * 20, s!"Loading frame {i+1}/{n}..."⟩

/-- The per-frame `setProgress` calls of the concatenation loop
(useStitcher.ts lines 109–113): percent `50 + (i / images.length) * 30`. -/
def warpEvents (n : Nat) : List ProgressEvent :=
  (List.range n).map fun (i : Nat) =>
    ⟨.warping, 50 + ((i : ℚ) / (n : ℚ)) * 30, s!"Stitching frame {i+1}/{n}..."⟩

/-- `setProgress({ stage: 'loading', progress: 0, ... })`, line 34. -/
def loadingEvent : ProgressEvent := ⟨.loading, 0, "Loading frames..."⟩

/-- `setProgress({ stage: 'preprocessing', progress: 10, ... })`, line 38. -/
def preprocessingEvent : ProgressEvent := ⟨.preprocessing, 10, "Preprocessing frames..."⟩

/-- `setProgress({ stage: 'detecting', progress: 30, ... })`, line 64. -/
def detectingEvent : ProgressEvent := ⟨.detecting, 30, "Detecting features..."⟩

/-- `setProgress({ stage: 'warping', progress: 50, ... })`, line 86. -/
def arrangeEvent : ProgressEvent := ⟨.warping, 50, "Arranging frames..."⟩

/-- `setProgress({ stage: 'blending', progress: 80, ... })`, line 117. -/
def blendingEvent : ProgressEvent := ⟨.blending, 80, "Blending seams..."⟩

/-- `setProgress({ stage: 'complete', progress: 100, ... })`, line 122. -/
def completeEvent : ProgressEvent := ⟨.complete, 100, "Complete!"⟩

/-- The events every non-rejected run emits before algorithm selection
(useStitcher.ts lines 34, 38, 48–52, 64). -/
def headerEvents (n : Nat) : List ProgressEvent :=
  loadingEvent :: preprocessingEvent :: (preprocessEvents n ++ [detectingEvent])

/-- `stitchFrames` (useStitcher.ts lines 23–147), on the path where
every frame decodes successfully:

* `if (!isLoaded || !cv) throw` — before anything else;
* `if (frames.length < 2) throw` — before the first `setProgress`;
* load loop emitting `headerEvents`;
* if the `cv.Stitcher` primitive exists: run it; a non-OK status is
  thrown (and rethrown by both `catch` blocks), NOT fallen back from;
* otherwise the horizontal-concatenation fallback runs, emitting the
  warping events;
* `blending` (80) and `complete` (100) events, then the equirectangular
  resize of the composite is returned. -/
def stitchFrames (cfg : EngineConfig) (frames : List Image) : StitchOutcome :=
  if cfg.loaded = false then
    ⟨[], .error .engineNotLoaded⟩
  else if frames.length < 2 then
    ⟨[], .error .insufficientFrames⟩
  else if cfg.stitcherAvailable then
    match cfg.featureStitch frames with
    | .ok pano =>
        ⟨headerEvents frames.length ++ [blendingEvent, completeEvent],
         .ok (projectionConvert pano)⟩
    | .error status =>
        ⟨headerEvents frames.length, .error (.stitchStatus status)⟩
  else
    ⟨headerEvents frames.length
      ++ (arrangeEvent :: (warpEvents frames.length ++ [blendingEvent, completeEvent])),
     .ok (projectionConvert (fallbackStitch frames))⟩

/- ### The capture scheduler -/

/-- The capture loop of `startCapture` (PanoramaCapture.tsx lines
75–89) after `n` iterations: at attempt `i` the external
`captureFrame()` either yields a frame, which is pushed, or `null`,
which is skipped (no retry).  The `setTimeout` interval wait between
attempts carries no data. -/
def captureLoop (source : Nat → Option Image) : Nat → List Image
  | 0 => []
  | n + 1 => captureLoop source n ++ (source n).toList

/-- One `startCapture` acquisition run (PanoramaCapture.tsx lines
70–89): `interval = durationMs / frameCount` drives only the
`setTimeout` waits, never the content of the captured list. -/
def captureRun (durationMs frameCount : Nat) (source : Nat → Option Image) : List Image :=
  let _interval := durationMs / frameCount
  captureLoop source frameCount

/-- What `startCapture` reports back: `onFramesCaptured(frames)` or
`onError(message)`. -/
inductive CaptureOutcome
  | framesCaptured (frames : List Image)
  | errorReported (message : String)

/-- The post-loop check (PanoramaCapture.tsx lines 93–97):
`if (capturedFrames.length >= 2) onFramesCaptured(capturedFrames) else
onError('Failed to capture enough frames')`. -/
def finishCapture (captured : List Image) : CaptureOutcome :=
  if captured.length ≥ 2 then .framesCaptured captured
  else .errorReported "Failed to capture enough frames"

/-- `startCapture` (PanoramaCapture.tsx lines 52–98): the
`if (!isActive)` guard, then (countdown, which emits no frames) the
capture loop, then the post-condition check. -/
def startCapture (isActive : Bool) (durationMs frameCount : Nat)
    (source : Nat → Option Image) : CaptureOutcome :=
  if isActive = true then finishCapture (captureRun durationMs frameCount source)
  else .errorReported "Camera not ready"

/- ### Capture-loop lemmas -/

theorem captureLoop_eq_filterMap (source : Nat → Option Image) :
    ∀ n, captureLoop source n = (List.range n).filterMap source := by
  intro n
  induction n with
  | zero => rfl
  | succ m ih =>
      rw [show captureLoop source (m + 1)
          = captureLoop source m ++ (source m).toList from rfl,
        ih, List.range_succ, List.filterMap_append]
      cases h : source m <;> simp [h]

theorem captureLoop_length_le (source : Nat → Option Image) (n : Nat) :
    (captureLoop source n).length ≤ n := by
  rw [captureLoop_eq_filterMap]
  calc ((List.range n).filterMap source).length
      ≤ (List.range n).length := List.length_filterMap_le source (List.range n)
    _ = n := List.length_range n

theorem captureLoop_length_all_some (source : Nat → Option Image) :
    ∀ n, (∀ i, i < n → (source i).isSome) → (captureLoop source n).length = n := by
  intro n
  induction n with
  | zero => intro _; rfl
  | succ m ih =>
      intro h
      rw [show captureLoop source (m + 1)
          = captureLoop source m ++ (source m).toList from rfl]
      rw [List.length_append, ih (fun i hi => h i (by omega))]
      have hm := h m (by omega)
      cases hsm : source m
      · rw [hsm] at hm; simp at hm
      · simp [hsm]

/- ### Concrete fixtures for witnesses and counterexamples -/

/-- A 2×1 test frame. -/
def imgA : Image := ⟨2, 1, fun x y => (1, x, y, 255)⟩

/-- A 3×2 test frame. -/
def imgB : Image := ⟨3, 2, fun x y => (2, x, y, 255)⟩

/-- A two-frame sequence. -/
def frames2 : List Image := [imgA, imgB]

/-- Engine loaded, `cv.Stitcher` primitive missing. -/
def cfgUnavailable : EngineConfig := ⟨true, false, fun _ => .error 0⟩

/-- Engine loaded, `cv.Stitcher` present but reporting status 1 (not
`Stitcher_OK`). -/
def cfgBadStatus : EngineConfig := ⟨true, true, fun _ => .error 1⟩

/-- Engine loaded, `cv.Stitcher` present and succeeding. -/
def cfgStitcherOk : EngineConfig := ⟨true, true, fun _ => .ok imgA⟩

/-- OpenCV never finished loading. -/
def cfgNotLoaded : EngineConfig := ⟨false, true, fun _ => .ok imgA⟩

/-- A frame source whose every capture succeeds. -/
def allGoodSource : Nat → Option Image := fun _ => some imgA

/- ### Claim theorems: guards (C2, C9) -/

/-- C2: for every input frame list of length < 2 (with the engine
loaded), `stitchFrames` fails with the insufficient-frames error,
produces no panorama, and emits no progress event. -/
theorem c2_insufficient_frames (cfg : EngineConfig) (frames : List Image)
    (hl : cfg.loaded = true) (hn : frames.length < 2) :
    (stitchFrames cfg frames).result = Except.error StitchError.insufficientFrames
    ∧ (stitchFrames cfg frames).events = []
    ∧ ∀ p, (stitchFrames cfg frames).result ≠ Except.ok p := by
  have h : stitchFrames cfg frames = ⟨[], .error .insufficientFrames⟩ := by
    simp [stitchFrames, hl, hn]
  rw [h]
  exact ⟨rfl, rfl, fun p hp => Except.noConfusion hp⟩

/-- Witness for C2 at the empty list. -/
theorem c2_insufficient_frames_witness :
    (stitchFrames cfgStitcherOk []).result = Except.error StitchError.insufficientFrames
    ∧ (stitchFrames cfgStitcherOk []).events = [] :=
  ⟨(c2_insufficient_frames cfgStitcherOk [] rfl (by decide)).1,
   (c2_insufficient_frames cfgStitcherOk [] rfl (by decide)).2.1⟩

/-- C9: the engine-availability check precedes the frame-count check:
with OpenCV not loaded the call rejects with the hard engine error even
for empty or single-frame input, and the insufficient-frames error can
only be observed with the engine loaded (and fewer than 2 frames). -/
theorem c9_engine_check_first (cfg : EngineConfig) (frames : List Image) :
    (cfg.loaded = false →
      (stitchFrames cfg frames).result = Except.error StitchError.engineNotLoaded
      ∧ (stitchFrames cfg frames).events = [])
    ∧ ((stitchFrames cfg frames).result = Except.error StitchError.insufficientFrames →
      cfg.loaded = true ∧ frames.length < 2) := by
  constructor
  · intro hl
    simp [stitchFrames, hl]
  · intro hres
    cases hl : cfg.loaded
    · rw [show stitchFrames cfg frames = ⟨[], .error .engineNotLoaded⟩ from by
        simp [stitchFrames, hl]] at hres
      simp at hres
    · refine ⟨rfl, ?_⟩
      by_contra hn
      cases hsa : cfg.stitcherAvailable
      · rw [show stitchFrames cfg frames
            = ⟨headerEvents frames.length
                ++ (arrangeEvent :: (warpEvents frames.length
                    ++ [blendingEvent, completeEvent])),
               .ok (projectionConvert (fallbackStitch frames))⟩ from by
          simp [stitchFrames, hl, hn, hsa]] at hres
        simp at hres
      · cases hfs : cfg.featureStitch frames with
        | ok pano =>
            rw [show stitchFrames cfg frames
                = ⟨headerEvents frames.length ++ [blendingEvent, completeEvent],
                   .ok (projectionConvert pano)⟩ from by
              simp [stitchFrames, hl, hn, hsa, hfs]] at hres
            simp at hres
        | error status =>
            rw [show stitchFrames cfg frames
                = ⟨headerEvents frames.length, .error (.stitchStatus status)⟩ from by
              simp [stitchFrames, hl, hn, hsa, hfs]] at hres
            simp at hres

/-- Witness for C9 with a single-frame input and the engine missing. -/
theorem c9_engine_check_first_witness :
    (stitchFrames cfgNotLoaded [imgA]).result = Except.error StitchError.engineNotLoaded
    ∧ (stitchFrames cfgNotLoaded [imgA]).events = [] :=
  (c9_engine_check_first cfgNotLoaded [imgA]).1 rfl

/- ### Claim theorems: algorithm selection (C1) -/

/-- C1 counterexample: with the engine loaded, two frames, the feature
capability available but reporting non-success status 1, `stitchFrames`
does NOT fall back — it surfaces the status as a hard error and returns
no panorama, refuting the claim at this input. -/
theorem c1_counterexample :
    (stitchFrames cfgBadStatus frames2).result = Except.error (StitchError.stitchStatus 1)
    ∧ ∀ p, (stitchFrames cfgBadStatus frames2).result ≠ Except.ok p := by
  have h : (stitchFrames cfgBadStatus frames2).result
      = Except.error (StitchError.stitchStatus 1) := rfl
  exact ⟨h, fun p hp => by rw [h] at hp; exact Except.noConfusion hp⟩

/-- C1 amended: with the engine loaded and ≥ 2 frames, the fallback
stitcher runs exactly when the feature capability is unavailable, in
which case a panorama is returned with no error; when the capability is
available but reports a non-success status, that status is surfaced to
the caller as an error (no fallback). -/
theorem c1_fallback_policy (cfg : EngineConfig) (frames : List Image)
    (hl : cfg.loaded = true) (h2 : 2 ≤ frames.length) :
    (cfg.stitcherAvailable = false →
      (stitchFrames cfg frames).result
        = Except.ok (projectionConvert (fallbackStitch frames)))
    ∧ (∀ status, cfg.stitcherAvailable = true →
      cfg.featureStitch frames = Except.error status →
      (stitchFrames cfg frames).result = Except.error (StitchError.stitchStatus status)) := by
  have hn : ¬frames.length < 2 := by omega
  constructor
  · intro hsa
    simp [stitchFrames, hl, hn, hsa]
  · intro status hsa hfs
    simp [stitchFrames, hl, hn, hsa, hfs]

/-- Witness for the amended C1: capability unavailable, two frames. -/
theorem c1_fallback_policy_witness :
    (stitchFrames cfgUnavailable frames2).result
      = Except.ok (projectionConvert (fallbackStitch frames2)) :=
  (c1_fallback_policy cfgUnavailable frames2 rfl (by decide)).1 rfl

/- ### Claim theorems: projection (C4) -/

/-- C4: the projection-converter step returns an image whose width
equals the composite's width and whose height is `⌊width / 2⌋`. -/
theorem c4_projection_dims : ∀ composite : Image,
    (projectionConvert composite).width = composite.width
    ∧ (projectionConvert composite).height = composite.width / 2 :=
  fun _ => ⟨rfl, rfl⟩

/- ### Claim theorems: capture scheduler (C5, C6) -/

/-- C5: a capture run that completes without cancellation yields
exactly the subsequence of successful `captureFrame` results in capture
order (`filterMap` of the per-attempt source over the attempt indices):
its length never exceeds `frameCount`, failed slots are simply skipped,
and when every attempt succeeds the length is exactly `frameCount`. -/
theorem c5_capture_subsequence (durationMs frameCount : Nat)
    (source : Nat → Option Image) (hd : 0 < durationMs) (h2 : 2 ≤ frameCount) :
    captureRun durationMs frameCount source = (List.range frameCount).filterMap source
    ∧ (captureRun durationMs frameCount source).length ≤ frameCount
    ∧ ((∀ i, i < frameCount → (source i).isSome) →
      (captureRun durationMs frameCount source).length = frameCount) :=
  ⟨captureLoop_eq_filterMap source frameCount,
   captureLoop_length_le source frameCount,
   fun h => captureLoop_length_all_some source frameCount h⟩

/-- Witness for C5 at the default session parameters (12000 ms, 18
frames) with an always-succeeding source: exactly 18 frames. -/
theorem c5_capture_subsequence_witness :
    (captureRun 12000 18 allGoodSource).length = 18 :=
  (c5_capture_subsequence 12000 18 allGoodSource (by decide) (by decide)).2.2
    (fun _ _ => rfl)

/-- C6: after the capture loop finishes, the operation hands the
captured sequence to the caller if and only if it has at least 2
frames; otherwise it reports the insufficient-frames error and no
sequence is delivered.  `startCapture` (camera active) is exactly this
check applied to the loop's result. -/
theorem c6_capture_postcondition (captured : List Image)
    (durationMs frameCount : Nat) (source : Nat → Option Image) :
    (finishCapture captured = CaptureOutcome.framesCaptured captured ↔ 2 ≤ captured.length)
    ∧ (captured.length < 2 →
      finishCapture captured = CaptureOutcome.errorReported "Failed to capture enough frames"
      ∧ ∀ gs, finishCapture captured ≠ CaptureOutcome.framesCaptured gs)
    ∧ startCapture true durationMs frameCount source
      = finishCapture (captureRun durationMs frameCount source) := by
  refine ⟨⟨?_, ?_⟩, ?_, rfl⟩
  · intro h
    by_contra hn
    have he : finishCapture captured = .errorReported "Failed to capture enough frames" := by
      unfold finishCapture
      rw [if_neg (by omega)]
    rw [he] at h
    exact CaptureOutcome.noConfusion h
  · intro h
    unfold finishCapture
    rw [if_pos h]
  · intro hlt
    have he : finishCapture captured = .errorReported "Failed to capture enough frames" := by
      unfold finishCapture
      rw [if_neg (by omega)]
    refine ⟨he, fun gs hgs => ?_⟩
    rw [he] at hgs
    exact CaptureOutcome.noConfusion hgs

/-- Witness for C6: a one-frame result is rejected, a two-frame result
is delivered. -/
theorem c6_capture_postcondition_witness :
    finishCapture [imgA] = CaptureOutcome.errorReported "Failed to capture enough frames"
    ∧ finishCapture frames2 = CaptureOutcome.framesCaptured frames2 :=
  ⟨((c6_capture_postcondition [imgA] 12000 18 allGoodSource).2.1 (by decide)).1,
   (c6_capture_postcondition frames2 12000 18 allGoodSource).1.mpr (by decide)⟩

/- ### Claim theorems: fallback geometry (C3, C10) -/

/-- C3: on any ≥ 2 frames the fallback stitcher produces a composite of
width `w1 + ... + wn` and height `max(h1, ..., hn)`, laying the frames
left-to-right in capture order (frame `i` starting at the sum of the
widths of frames `0..i-1`) with every source pixel present in the
composite. -/
theorem c3_fallback_concat (imgs : List Image) (h2 : 2 ≤ imgs.length) :
    (fallbackStitch imgs).width = (imgs.map Image.width).sum
    ∧ (∀ img ∈ imgs, img.height ≤ (fallbackStitch imgs).height)
    ∧ (∃ img ∈ imgs, (fallbackStitch imgs).height = img.height)
    ∧ ∀ i (hi : i < imgs.length) x y,
      x < (imgs.get ⟨i, hi⟩).width → y < (imgs.get ⟨i, hi⟩).height →
      (fallbackStitch imgs).pix (offsetOf imgs i + x) y = (imgs.get ⟨i, hi⟩).pix x y := by
  refine ⟨fallbackStitch_width imgs, ?_, ?_, ?_⟩
  · intro img hmem
    rw [fallbackStitch_height]
    exact height_le_maxHeight imgs img hmem
  · have hne : imgs ≠ [] := by
      intro h
      rw [h] at h2
      simp at h2
    rcases maxHeight_mem imgs hne with ⟨img, hmem, heq⟩
    refine ⟨img, hmem, ?_⟩
    rw [fallbackStitch_height]
    exact heq
  · intro i hi x y hx hy
    have h := concatImages_pix_frame imgs
      (blackCanvas (totalWidth imgs) (maxHeight imgs)) 0 i hi x y hx hy
    simpa [fallbackStitch] using h

/-- Witness for C3: in the two-frame composite, frame 1's origin pixel
sits at x = width of frame 0. -/
theorem c3_fallback_concat_witness :
    (fallbackStitch frames2).pix 2 0 = imgB.pix 0 0 := by
  have h := (c3_fallback_concat frames2 (by decide)).2.2.2 1 (by decide) 0 0
    (by decide) (by decide)
  simpa [frames2, offsetOf, imgA] using h

/-- C10: frame `i` occupies the rectangle starting at x-offset
`w0 + ... + w(i-1)`, y-offset 0; the frames' rectangles are pairwise
disjoint (frame `i` ends at or before frame `j` starts, for `i < j`);
and every composite pixel covered by no frame keeps the canvas fill
(0, 0, 0, 255) — RGBA black with full alpha. -/
theorem c10_fallback_layout (imgs : List Image) (h2 : 2 ≤ imgs.length) :
    (∀ i j (hi : i < imgs.length) (hj : j < imgs.length), i < j →
      offsetOf imgs i + (imgs.get ⟨i, hi⟩).width ≤ offsetOf imgs j)
    ∧ (∀ i (hi : i < imgs.length) x y,
      x < (imgs.get ⟨i, hi⟩).width → y < (imgs.get ⟨i, hi⟩).height →
      (fallbackStitch imgs).pix (offsetOf imgs i + x) y = (imgs.get ⟨i, hi⟩).pix x y)
    ∧ (∀ x y,
      (∀ i (hi : i < imgs.length),
        ¬(offsetOf imgs i ≤ x ∧ x < offsetOf imgs i + (imgs.get ⟨i, hi⟩).width
          ∧ y < (imgs.get ⟨i, hi⟩).height)) →
      (fallbackStitch imgs).pix x y = (0, 0, 0, 255)) := by
  refine ⟨?_, ?_, ?_⟩
  · intro i j hi hj hij
    have hs := offsetOf_succ imgs i hi
    have hm := offsetOf_mono imgs (i + 1) j (by omega)
    omega
  · intro i hi x y hx hy
    have h := concatImages_pix_frame imgs
      (blackCanvas (totalWidth imgs) (maxHeight imgs)) 0 i hi x y hx hy
    simpa [fallbackStitch] using h
  · intro x y h
    have hc := concatImages_pix_uncovered imgs
      (blackCanvas (totalWidth imgs) (maxHeight imgs)) 0 x y
      (fun i hi => by simpa using h i hi)
    simpa [fallbackStitch, blackCanvas] using hc

/-- Witness for C10: the pixel under the short first frame (x = 0,
y = 1) is covered by no frame and is opaque black. -/
theorem c10_fallback_layout_witness :
    (fallbackStitch frames2).pix 0 1 = (0, 0, 0, 255) :=
  (c10_fallback_layout frames2 (by decide)).2.2 0 1 (by decide)

/- ### Stage order -/

/-- Position of a stage in the documented pipeline order
`loading → preprocessing → detecting → matching → warping → blending →
complete`. -/
def stageIdx : Stage → Nat
  | .loading => 0
  | .preprocessing => 1
  | .detecting => 2
  | .matching => 3
  | .warping => 4
  | .blending => 5
  | .complete => 6

/-- Event `a` is at or before event `b` in the pipeline stage order. -/
def stageLE (a b : ProgressEvent) : Prop :=
  stageIdx a.stage ≤ stageIdx b.stage

theorem mem_preprocessEvents {n : Nat} {e : ProgressEvent}
    (he : e ∈ preprocessEvents n) :
    e.stage = Stage.preprocessing
    ∧ ∃ i : Nat, i < n ∧ e.progress = 10 + ((i : ℚ) / (n : ℚ)) * 20 := by
  rcases List.mem_map.mp he with ⟨i, hi, rfl⟩
  exact ⟨rfl, i, List.mem_range.mp hi, rfl⟩

theorem mem_warpEvents {n : Nat} {e : ProgressEvent}
    (he : e ∈ warpEvents n) :
    e.stage = Stage.warping
    ∧ ∃ i : Nat, i < n ∧ e.progress = 50 + ((i : ℚ) / (n : ℚ)) * 30 := by
  rcases List.mem_map.mp he with ⟨i, hi, rfl⟩
  exact ⟨rfl, i, List.mem_range.mp hi, rfl⟩

theorem mem_headerEvents {n : Nat} {e : ProgressEvent}
    (he : e ∈ headerEvents n) :
    e = loadingEvent ∨ e = preprocessingEvent ∨ e ∈ preprocessEvents n
    ∨ e = detectingEvent := by
  simp only [headerEvents, List.mem_cons, List.mem_append,
    List.mem_singleton] at he
  tauto

theorem headerEvents_stageIdx_le {n : Nat} {e : ProgressEvent}
    (he : e ∈ headerEvents n) : stageIdx e.stage ≤ 2 := by
  rcases mem_headerEvents he with h | h | h | h
  · rw [h]; decide
  · rw [h]; decide
  · rw [(mem_preprocessEvents h).1]; decide
  · rw [h]; decide

theorem headerEvents_stage_ne_matching {n : Nat} {e : ProgressEvent}
    (he : e ∈ headerEvents n) : e.stage ≠ Stage.matching := by
  rcases mem_headerEvents he with h | h | h | h
  · rw [h]; decide
  · rw [h]; decide
  · rw [(mem_preprocessEvents h).1]; decide
  · rw [h]; decide

theorem headerEvents_stage_ne_warping {n : Nat} {e : ProgressEvent}
    (he : e ∈ headerEvents n) : e.stage ≠ Stage.warping := by
  rcases mem_headerEvents he with h | h | h | h
  · rw [h]; decide
  · rw [h]; decide
  · rw [(mem_preprocessEvents h).1]; decide
  · rw [h]; decide

theorem pairwise_stage_const (l : List ProgressEvent) (s : Stage)
    (h : ∀ e ∈ l, e.stage = s) : List.Pairwise stageLE l := by
  induction l with
  | nil => exact List.Pairwise.nil
  | cons a l ih =>
      refine List.Pairwise.cons ?_ (ih fun e he => h e (List.mem_cons_of_mem a he))
      intro b hb
      unfold stageLE
      rw [h a (List.mem_cons_self a l), h b (List.mem_cons_of_mem a hb)]

theorem headerEvents_pairwise (n : Nat) :
    List.Pairwise stageLE (headerEvents n) := by
  unfold headerEvents
  refine List.Pairwise.cons ?_ (List.Pairwise.cons ?_ ?_)
  · intro b hb
    unfold stageLE
    rw [show loadingEvent.stage = Stage.loading from rfl]
    exact Nat.zero_le _
  · intro b hb
    unfold stageLE
    rw [show preprocessingEvent.stage = Stage.preprocessing from rfl]
    rcases List.mem_append.mp hb with h | h
    · rw [(mem_preprocessEvents h).1]
    · rw [List.mem_singleton.mp h]; decide
  · rw [List.pairwise_append]
    refine ⟨pairwise_stage_const _ Stage.preprocessing
        (fun e he => (mem_preprocessEvents he).1),
      List.pairwise_singleton _ _, ?_⟩
    intro a ha b hb
    unfold stageLE
    rw [(mem_preprocessEvents ha).1, List.mem_singleton.mp hb]
    decide

theorem pairwise_header_append (n : Nat) (tail : List ProgressEvent)
    (hp : List.Pairwise stageLE tail)
    (hge : ∀ e ∈ tail, 2 ≤ stageIdx e.stage) :
    List.Pairwise stageLE (headerEvents n ++ tail) := by
  rw [List.pairwise_append]
  exact ⟨headerEvents_pairwise n, hp, fun a ha b hb =>
    le_trans (headerEvents_stageIdx_le ha) (hge b hb)⟩

theorem pairwise_blend_complete :
    List.Pairwise stageLE [blendingEvent, completeEvent] := by
  refine List.Pairwise.cons ?_ (List.pairwise_singleton _ _)
  intro b hb
  unfold stageLE
  rw [List.mem_singleton.mp hb]
  decide

theorem mem_blend_complete {e : ProgressEvent}
    (he : e ∈ [blendingEvent, completeEvent]) :
    e = blendingEvent ∨ e = completeEvent := by
  simpa using he

/-- The full event list of the fallback branch, seen as header ++ tail. -/
theorem pairwise_fallback_tail (n : Nat) :
    List.Pairwise stageLE
      (arrangeEvent :: (warpEvents n ++ [blendingEvent, completeEvent])) := by
  refine List.Pairwise.cons ?_ ?_
  · intro b hb
    unfold stageLE
    rw [show arrangeEvent.stage = Stage.warping from rfl]
    rcases List.mem_append.mp hb with h | h
    · rw [(mem_warpEvents h).1]
    · rcases mem_blend_complete h with h | h <;> rw [h] <;> decide
  · rw [List.pairwise_append]
    refine ⟨pairwise_stage_const _ Stage.warping
        (fun e he => (mem_warpEvents he).1),
      pairwise_blend_complete, ?_⟩
    intro a ha b hb
    unfold stageLE
    rw [(mem_warpEvents ha).1]
    rcases mem_blend_complete hb with h | h <;> rw [h] <;> decide

theorem fallback_tail_stageIdx_ge (n : Nat) :
    ∀ e ∈ arrangeEvent :: (warpEvents n ++ [blendingEvent, completeEvent]),
      2 ≤ stageIdx e.stage := by
  intro e he
  rcases List.mem_cons.mp he with h | h
  · rw [h]; decide
  · rcases List.mem_append.mp h with h | h
    · rw [(mem_warpEvents h).1]; decide
    · rcases mem_blend_complete h with h | h <;> rw [h] <;> decide

theorem blend_complete_stageIdx_ge :
    ∀ e ∈ [blendingEvent, completeEvent], 2 ≤ stageIdx e.stage := by
  intro e he
  rcases mem_blend_complete he with h | h <;> rw [h] <;> decide

/- ### Claim theorems: stage order (C7) -/

/-- C7 counterexample: a successful fallback run (engine loaded, two
frames, feature capability unavailable) reaches `complete` yet emits no
event whose stage is `matching`, refuting "each listed stage is
visited". -/
theorem c7_counterexample :
    ((stitchFrames cfgUnavailable frames2).events.countP
      (fun e => decide (e.stage = Stage.matching)) = 0)
    ∧ ((stitchFrames cfgUnavailable frames2).events.countP
      (fun e => decide (e.stage = Stage.complete)) = 1) := by
  decide

/-- C7 amended: within one stitch operation the emitted stages never
move backward through the order loading, preprocessing, detecting,
matching, warping, blending, complete — but not every listed stage is
visited: no `matching` event is ever emitted, and `warping` events
occur only on the fallback path (never when the feature capability is
available). -/
theorem c7_stage_forward (cfg : EngineConfig) (frames : List Image) :
    List.Pairwise stageLE (stitchFrames cfg frames).events
    ∧ (∀ e ∈ (stitchFrames cfg frames).events, e.stage ≠ Stage.matching)
    ∧ (cfg.stitcherAvailable = true →
      ∀ e ∈ (stitchFrames cfg frames).events, e.stage ≠ Stage.warping) := by
  cases hl : cfg.loaded
  · rw [show stitchFrames cfg frames = ⟨[], .error .engineNotLoaded⟩ from by
      simp [stitchFrames, hl]]
    refine ⟨List.Pairwise.nil, ?_, ?_⟩
    · intro e he
      simp at he
    · intro _ e he
      simp at he
  · by_cases hn : frames.length < 2
    · rw [show stitchFrames cfg frames = ⟨[], .error .insufficientFrames⟩ from by
        simp [stitchFrames, hl, hn]]
      refine ⟨List.Pairwise.nil, ?_, ?_⟩
      · intro e he
        simp at he
      · intro _ e he
        simp at he
    · cases hsa : cfg.stitcherAvailable
      · rw [show stitchFrames cfg frames
            = ⟨headerEvents frames.length
                ++ (arrangeEvent :: (warpEvents frames.length
                    ++ [blendingEvent, completeEvent])),
               .ok (projectionConvert (fallbackStitch frames))⟩ from by
          simp [stitchFrames, hl, hn, hsa]]
        refine ⟨pairwise_header_append _ _ (pairwise_fallback_tail _)
          (fallback_tail_stageIdx_ge _), ?_, ?_⟩
        · intro e he
          rcases List.mem_append.mp he with h | h
          · exact headerEvents_stage_ne_matching h
          · rcases List.mem_cons.mp h with h | h
            · rw [h]; decide
            · rcases List.mem_append.mp h with h | h
              · rw [(mem_warpEvents h).1]; decide
              · rcases mem_blend_complete h with h | h <;> rw [h] <;> decide
        · intro hsa' e he
          exact Bool.noConfusion hsa'
      · cases hfs : cfg.featureStitch frames with
        | ok pano =>
            rw [show stitchFrames cfg frames
                = ⟨headerEvents frames.length ++ [blendingEvent, completeEvent],
                   .ok (projectionConvert pano)⟩ from by
              simp [stitchFrames, hl, hn, hsa, hfs]]
            refine ⟨pairwise_header_append _ _ pairwise_blend_complete
              blend_complete_stageIdx_ge, ?_, ?_⟩
            · intro e he
              rcases List.mem_append.mp he with h | h
              · exact headerEvents_stage_ne_matching h
              · rcases mem_blend_complete h with h | h <;> rw [h] <;> decide
            · intro _ e he
              rcases List.mem_append.mp he with h | h
              · exact headerEvents_stage_ne_warping h
              · rcases mem_blend_complete h with h | h <;> rw [h] <;> decide
        | error status =>
            rw [show stitchFrames cfg frames
                = ⟨headerEvents frames.length, .error (.stitchStatus status)⟩ from by
              simp [stitchFrames, hl, hn, hsa, hfs]]
            refine ⟨headerEvents_pairwise _, ?_, ?_⟩
            · intro e he
              exact headerEvents_stage_ne_matching he
            · intro _ e he
              exact headerEvents_stage_ne_warping he

/-- Witness for the amended C7: with the feature path taken, the
detecting event is in the trace and is not a warping event. -/
theorem c7_stage_forward_witness :
    detectingEvent.stage ≠ Stage.warping :=
  (c7_stage_forward cfgStitcherOk frames2).2.2 rfl detectingEvent (by decide)

/- ### Progress checkpoints (C8) -/

/-- The events of a given stage, as a Boolean predicate for `filter`. -/
def byStage (s : Stage) : ProgressEvent → Bool :=
  fun e => decide (e.stage = s)

theorem filter_preprocessEvents_self (n : Nat) :
    (preprocessEvents n).filter (byStage Stage.preprocessing) = preprocessEvents n :=
  List.filter_eq_self.mpr fun e he =>
    decide_eq_true (mem_preprocessEvents he).1

theorem filter_preprocessEvents_ne (n : Nat) (s : Stage)
    (hs : s ≠ Stage.preprocessing) :
    (preprocessEvents n).filter (byStage s) = [] := by
  rw [List.filter_eq_nil_iff]
  intro e he hp
  have hstage : e.stage = s := of_decide_eq_true hp
  rw [(mem_preprocessEvents he).1] at hstage
  exact hs hstage.symm

theorem filter_warpEvents_self (n : Nat) :
    (warpEvents n).filter (byStage Stage.warping) = warpEvents n :=
  List.filter_eq_self.mpr fun e he =>
    decide_eq_true (mem_warpEvents he).1

theorem filter_warpEvents_ne (n : Nat) (s : Stage) (hs : s ≠ Stage.warping) :
    (warpEvents n).filter (byStage s) = [] := by
  rw [List.filter_eq_nil_iff]
  intro e he hp
  have hstage : e.stage = s := of_decide_eq_true hp
  rw [(mem_warpEvents he).1] at hstage
  exact hs hstage.symm

theorem headerEvents_decomp (n : Nat) :
    headerEvents n
      = [loadingEvent, preprocessingEvent] ++ (preprocessEvents n ++ [detectingEvent]) :=
  rfl

theorem headerEvents_filter_split (n : Nat) (s : Stage) :
    (headerEvents n).filter (byStage s)
      = [loadingEvent, preprocessingEvent].filter (byStage s)
        ++ ((preprocessEvents n).filter (byStage s)
            ++ [detectingEvent].filter (byStage s)) := by
  rw [headerEvents_decomp, List.filter_append, List.filter_append]

theorem headerEvents_filter_loading (n : Nat) :
    (headerEvents n).filter (byStage Stage.loading) = [loadingEvent] := by
  rw [headerEvents_filter_split, filter_preprocessEvents_ne n Stage.loading (by decide)]
  rfl

theorem headerEvents_filter_preprocessing (n : Nat) :
    (headerEvents n).filter (byStage Stage.preprocessing)
      = preprocessingEvent :: preprocessEvents n := by
  rw [headerEvents_filter_split, filter_preprocessEvents_self]
  show [preprocessingEvent] ++ (preprocessEvents n ++ []) = _
  rw [List.append_nil]
  rfl

theorem headerEvents_filter_detecting (n : Nat) :
    (headerEvents n).filter (byStage Stage.detecting) = [detectingEvent] := by
  rw [headerEvents_filter_split, filter_preprocessEvents_ne n Stage.detecting (by decide)]
  rfl

theorem headerEvents_filter_none (n : Nat) (s : Stage)
    (h1 : s ≠ Stage.loading) (h2 : s ≠ Stage.preprocessing)
    (h3 : s ≠ Stage.detecting) :
    (headerEvents n).filter (byStage s) = [] := by
  rw [List.filter_eq_nil_iff]
  intro e he hp
  have hstage : e.stage = s := of_decide_eq_true hp
  rcases mem_headerEvents he with h | h | h | h
  · rw [h] at hstage
    exact h1 hstage.symm
  · rw [h] at hstage
    exact h2 hstage.symm
  · rw [(mem_preprocessEvents h).1] at hstage
    exact h2 hstage.symm
  · rw [h] at hstage
    exact h3 hstage.symm

/-- The fallback tail, filtered by `warping`, is the arrange event plus
the per-frame warp events. -/
theorem fallback_tail_filter_warping (n : Nat) :
    (arrangeEvent :: (warpEvents n ++ [blendingEvent, completeEvent])).filter
        (byStage Stage.warping)
      = arrangeEvent :: warpEvents n := by
  rw [List.filter_cons, List.filter_append, filter_warpEvents_self]
  rw [if_pos (show byStage Stage.warping arrangeEvent = true from rfl)]
  show arrangeEvent :: (warpEvents n ++ []) = _
  rw [List.append_nil]

theorem fallback_tail_filter_none (n : Nat) (s : Stage)
    (hw : s ≠ Stage.warping) (hb : s ≠ Stage.blending)
    (hc : s ≠ Stage.complete) :
    (arrangeEvent :: (warpEvents n ++ [blendingEvent, completeEvent])).filter
      (byStage s) = [] := by
  rw [List.filter_eq_nil_iff]
  intro e he hp
  have hstage : e.stage = s := of_decide_eq_true hp
  rcases List.mem_cons.mp he with h | h
  · rw [h] at hstage
    exact hw hstage.symm
  · rcases List.mem_append.mp h with h | h
    · rw [(mem_warpEvents h).1] at hstage
      exact hw hstage.symm
    · rcases mem_blend_complete h with h | h
      · rw [h] at hstage
        exact hb hstage.symm
      · rw [h] at hstage
        exact hc hstage.symm

theorem map_progress_preprocessEvents (n : Nat) :
    (preprocessEvents n).map ProgressEvent.progress
      = (List.range n).map (fun (i : Nat) => 10 + ((i : ℚ) / (n : ℚ)) * 20) := by
  unfold preprocessEvents
  rw [List.map_map]
  rfl

theorem map_progress_warpEvents (n : Nat) :
    (warpEvents n).map ProgressEvent.progress
      = (List.range n).map (fun (i : Nat) => 50 + ((i : ℚ) / (n : ℚ)) * 30) := by
  unfold warpEvents
  rw [List.map_map]
  rfl

theorem ratio_bounds {n i : Nat} (hn : 0 < n) (hi : i < n) :
    0 ≤ (i : ℚ) / (n : ℚ) ∧ (i : ℚ) / (n : ℚ) ≤ 1 := by
  have hn' : (0 : ℚ) < (n : ℚ) := by exact_mod_cast hn
  constructor
  · positivity
  · rw [div_le_one hn']
    exact_mod_cast Nat.le_of_lt hi

theorem pre_progress_bound {n i : Nat} (hn : 0 < n) (hi : i < n) :
    (10 : ℚ) ≤ 10 + ((i : ℚ) / (n : ℚ)) * 20
    ∧ 10 + ((i : ℚ) / (n : ℚ)) * 20 ≤ 30 := by
  obtain ⟨h0, h1⟩ := ratio_bounds hn hi
  constructor <;> nlinarith

theorem warp_progress_bound {n i : Nat} (hn : 0 < n) (hi : i < n) :
    (50 : ℚ) ≤ 50 + ((i : ℚ) / (n : ℚ)) * 30
    ∧ 50 + ((i : ℚ) / (n : ℚ)) * 30 ≤ 80 := by
  obtain ⟨h0, h1⟩ := ratio_bounds hn hi
  constructor <;> nlinarith

/-- Per-event percentage facts over the largest possible trace (the
fallback branch); the other branches' traces embed into it. -/
theorem events_progress_bounds (n : Nat) (hn : 0 < n) :
    ∀ e ∈ headerEvents n
        ++ (arrangeEvent :: (warpEvents n ++ [blendingEvent, completeEvent])),
      (e.stage = Stage.preprocessing → 10 ≤ e.progress ∧ e.progress ≤ 30)
      ∧ (e.stage = Stage.warping → 50 ≤ e.progress ∧ e.progress ≤ 80)
      ∧ (e.stage = Stage.blending → e.progress = 80)
      ∧ (e.stage = Stage.complete → e.progress = 100) := by
  intro e he
  rcases List.mem_append.mp he with h | h
  · rcases mem_headerEvents h with h | h | h | h
    · rw [h]
      exact ⟨fun hh => absurd hh (by decide), fun hh => absurd hh (by decide),
        fun hh => absurd hh (by decide), fun hh => absurd hh (by decide)⟩
    · rw [h]
      refine ⟨fun _ => ?_, fun hh => absurd hh (by decide),
        fun hh => absurd hh (by decide), fun hh => absurd hh (by decide)⟩
      norm_num [preprocessingEvent]
    · obtain ⟨hstage, i, hi, hprog⟩ := mem_preprocessEvents h
      refine ⟨fun _ => ?_, fun hh => ?_, fun hh => ?_, fun hh => ?_⟩
      · rw [hprog]
        exact pre_progress_bound hn hi
      · rw [hstage] at hh
        exact absurd hh (by decide)
      · rw [hstage] at hh
        exact absurd hh (by decide)
      · rw [hstage] at hh
        exact absurd hh (by decide)
    · rw [h]
      exact ⟨fun hh => absurd hh (by decide), fun hh => absurd hh (by decide),
        fun hh => absurd hh (by decide), fun hh => absurd hh (by decide)⟩
  · rcases List.mem_cons.mp h with h | h
    · rw [h]
      refine ⟨fun hh => absurd hh (by decide), fun _ => ?_,
        fun hh => absurd hh (by decide), fun hh => absurd hh (by decide)⟩
      norm_num [arrangeEvent]
    · rcases List.mem_append.mp h with h | h
      · obtain ⟨hstage, i, hi, hprog⟩ := mem_warpEvents h
        refine ⟨fun hh => ?_, fun _ => ?_, fun hh => ?_, fun hh => ?_⟩
        · rw [hstage] at hh
          exact absurd hh (by decide)
        · rw [hprog]
          exact warp_progress_bound hn hi
        · rw [hstage] at hh
          exact absurd hh (by decide)
        · rw [hstage] at hh
          exact absurd hh (by decide)
      · rcases mem_blend_complete h with h | h
        · rw [h]
          exact ⟨fun hh => absurd hh (by decide), fun hh => absurd hh (by decide),
            fun _ => rfl, fun hh => absurd hh (by decide)⟩
        · rw [h]
          exact ⟨fun hh => absurd hh (by decide), fun hh => absurd hh (by decide),
            fun hh => absurd hh (by decide), fun _ => rfl⟩

theorem mem_featureOk_to_fallback {n : Nat} {e : ProgressEvent}
    (he : e ∈ headerEvents n ++ [blendingEvent, completeEvent]) :
    e ∈ headerEvents n
      ++ (arrangeEvent :: (warpEvents n ++ [blendingEvent, completeEvent])) := by
  rcases List.mem_append.mp he with h | h
  · exact List.mem_append_left _ h
  · exact List.mem_append_right _
      (List.mem_cons_of_mem _ (List.mem_append_right _ h))

/-- C8: the emitted percentages reproduce the checkpoint contract:
the loading event carries 0; the preprocessing events start at 10 and
advance by `(i / n) * 20` per frame loaded, staying ≤ 30; the detecting
event carries 30; the warping events (fallback path) start at 50 and
advance by `(i / n) * 30` per frame placed, staying ≤ 80; blending
events carry 80 and complete events carry 100. -/
theorem c8_progress_checkpoints (cfg : EngineConfig) (frames : List Image)
    (hl : cfg.loaded = true) (h2 : 2 ≤ frames.length) :
    (((stitchFrames cfg frames).events.filter (byStage Stage.loading)).map
        ProgressEvent.progress = [0])
    ∧ (((stitchFrames cfg frames).events.filter (byStage Stage.preprocessing)).map
        ProgressEvent.progress
        = 10 :: (List.range frames.length).map
            (fun (i : Nat) => 10 + ((i : ℚ) / (frames.length : ℚ)) * 20))
    ∧ (∀ e ∈ (stitchFrames cfg frames).events, e.stage = Stage.preprocessing →
        10 ≤ e.progress ∧ e.progress ≤ 30)
    ∧ (((stitchFrames cfg frames).events.filter (byStage Stage.detecting)).map
        ProgressEvent.progress = [30])
    ∧ (cfg.stitcherAvailable = false →
        ((stitchFrames cfg frames).events.filter (byStage Stage.warping)).map
          ProgressEvent.progress
          = 50 :: (List.range frames.length).map
              (fun (i : Nat) => 50 + ((i : ℚ) / (frames.length : ℚ)) * 30))
    ∧ (∀ e ∈ (stitchFrames cfg frames).events, e.stage = Stage.warping →
        50 ≤ e.progress ∧ e.progress ≤ 80)
    ∧ (∀ e ∈ (stitchFrames cfg frames).events, e.stage = Stage.blending →
        e.progress = 80)
    ∧ (∀ e ∈ (stitchFrames cfg frames).events, e.stage = Stage.complete →
        e.progress = 100) := by
  have hn : ¬frames.length < 2 := by omega
  have hn' : 0 < frames.length := by omega
  cases hsa : cfg.stitcherAvailable
  · have hev : (stitchFrames cfg frames).events
        = headerEvents frames.length
          ++ (arrangeEvent :: (warpEvents frames.length
              ++ [blendingEvent, completeEvent])) := by
      simp [stitchFrames, hl, hn, hsa]
    rw [hev]
    refine ⟨?_, ?_, ?_, ?_, ?_, ?_, ?_, ?_⟩
    · rw [List.filter_append, headerEvents_filter_loading,
        fallback_tail_filter_none _ _ (by decide) (by decide) (by decide)]
      rfl
    · rw [List.filter_append, headerEvents_filter_preprocessing,
        fallback_tail_filter_none _ _ (by decide) (by decide) (by decide),
        List.append_nil]
      show (10 : ℚ) :: (preprocessEvents frames.length).map ProgressEvent.progress = _
      rw [map_progress_preprocessEvents]
    · intro e he hstage
      exact (events_progress_bounds frames.length hn' e he).1 hstage
    · rw [List.filter_append, headerEvents_filter_detecting,
        fallback_tail_filter_none _ _ (by decide) (by decide) (by decide)]
      rfl
    · intro _
      rw [List.filter_append,
        headerEvents_filter_none _ _ (by decide) (by decide) (by decide),
        fallback_tail_filter_warping, List.nil_append]
      show (50 : ℚ) :: (warpEvents frames.length).map ProgressEvent.progress = _
      rw [map_progress_warpEvents]
    · intro e he hstage
      exact (events_progress_bounds frames.length hn' e he).2.1 hstage
    · intro e he hstage
      exact (events_progress_bounds frames.length hn' e he).2.2.1 hstage
    · intro e he hstage
      exact (events_progress_bounds frames.length hn' e he).2.2.2 hstage
  · cases hfs : cfg.featureStitch frames with
    | ok pano =>
        have hev : (stitchFrames cfg frames).events
            = headerEvents frames.length ++ [blendingEvent, completeEvent] := by
          simp [stitchFrames, hl, hn, hsa, hfs]
        rw [hev]
        refine ⟨?_, ?_, ?_, ?_, ?_, ?_, ?_, ?_⟩
        · rw [List.filter_append, headerEvents_filter_loading]
          rfl
        · rw [List.filter_append, headerEvents_filter_preprocessing,
            show [blendingEvent, completeEvent].filter (byStage Stage.preprocessing)
              = [] from rfl, List.append_nil]
          show (10 : ℚ) :: (preprocessEvents frames.length).map ProgressEvent.progress = _
          rw [map_progress_preprocessEvents]
        · intro e he hstage
          exact (events_progress_bounds frames.length hn' e
            (mem_featureOk_to_fallback he)).1 hstage
        · rw [List.filter_append, headerEvents_filter_detecting]
          rfl
        · intro hh
          exact Bool.noConfusion hh
        · intro e he hstage
          exact (events_progress_bounds frames.length hn' e
            (mem_featureOk_to_fallback he)).2.1 hstage
        · intro e he hstage
          exact (events_progress_bounds frames.length hn' e
            (mem_featureOk_to_fallback he)).2.2.1 hstage
        · intro e he hstage
          exact (events_progress_bounds frames.length hn' e
            (mem_featureOk_to_fallback he)).2.2.2 hstage
    | error status =>
        have hev : (stitchFrames cfg frames).events = headerEvents frames.length := by
          simp [stitchFrames, hl, hn, hsa, hfs]
        rw [hev]
        refine ⟨?_, ?_, ?_, ?_, ?_, ?_, ?_, ?_⟩
        · rw [headerEvents_filter_loading]
          rfl
        · rw [headerEvents_filter_preprocessing]
          show (10 : ℚ) :: (preprocessEvents frames.length).map ProgressEvent.progress = _
          rw [map_progress_preprocessEvents]
        · intro e he hstage
          exact (events_progress_bounds frames.length hn' e
            (List.mem_append_left _ he)).1 hstage
        · rw [headerEvents_filter_detecting]
          rfl
        · intro hh
          exact Bool.noConfusion hh
        · intro e he hstage
          exact (events_progress_bounds frames.length hn' e
            (List.mem_append_left _ he)).2.1 hstage
        · intro e he hstage
          exact (events_progress_bounds frames.length hn' e
            (List.mem_append_left _ he)).2.2.1 hstage
        · intro e he hstage
          exact (events_progress_bounds frames.length hn' e
            (List.mem_append_left _ he)).2.2.2 hstage

/-- Witness for C8 at a concrete fallback run. -/
theorem c8_progress_checkpoints_witness :
    ((stitchFrames cfgUnavailable frames2).events.filter (byStage Stage.loading)).map
      ProgressEvent.progress = [0] :=
  (c8_progress_checkpoints cfgUnavailable frames2 rfl (by decide)).1

end VideoPano
